import Mathlib

/-!
Verification of the swing-trader data-management core
(`src/data_loaders/data_manager.py`) and the broker trailing-stop
percentage boundary (`src/brokers/alpaca_broker.py`, `src/brokers/types.py`),
as a shallow embedding in Lean 4.

Timestamps are modelled as integers counting seconds (UTC); one day is
86400 seconds, matching `timedelta(days=n)` at the resolution the claims
need.  All instants are taken UTC-normalized (the Python code normalizes
naive datetimes to UTC before every comparison, so the normalization is
the identity in the model).  A pandas DataFrame indexed by timestamp is
modelled as a `Table`: an ordered list of rows, each carrying its
timestamp and the values of the named value columns.
-/

namespace SwingTrader

/-- One day, in seconds: `timedelta(days=1)`. -/
def daySec : Int := 86400

/-- A row of a timestamp-indexed DataFrame: the index value `ts` and the
values of the value columns, positionally aligned with the table's
column list. -/
structure Row where
  ts : Int
  vals : List Int
deriving DecidableEq, Repr

/-- A timestamp-indexed DataFrame: named value columns plus ordered rows. -/
structure Table where
  cols : List String
  rows : List Row
deriving DecidableEq, Repr

/-- The two store partitions, `data/daily` and `data/minute`
(`DataManager.daily_path` / `minute_path`). -/
inductive Partition where
  | daily
  | minute
deriving DecidableEq, Repr

/-- `path = self.daily_path if timeframe == 'daily' else self.minute_path`:
every timeframe string other than exactly `'daily'` selects the minute
partition. -/
def partitionOf (timeframe : String) : Partition :=
  if timeframe = "daily" then .daily else .minute

/-- Content of one stored parquet file: either parseable (a table) or
corrupt (reading it raises, caught by the coverage check). -/
inductive FileContent where
  | corrupt
  | table (t : Table)
deriving DecidableEq, Repr

/-- The local store: partition × ticker → optional file. -/
def Store := Partition → String → Option FileContent

/-- `df.to_parquet(file_path)` after `path.mkdir(...)`: full replacement
of whatever was stored under that (partition, ticker) key. -/
def Store.writeFile (st : Store) (p : Partition) (ticker : String) (t : Table) : Store :=
  fun p2 tk2 => if p2 = p ∧ tk2 = ticker then some (.table t) else st p2 tk2

/-- `DataManager._check_file_exists`. -/
def checkFileExists (st : Store) (ticker : String) (timeframe : String) : Bool :=
  (st (partitionOf timeframe) ticker).isSome

/-- The timestamps of a table's rows, in row order (`df.index`). -/
def Table.tsList (t : Table) : List Int :=
  t.rows.map Row.ts

/-- `DataManager._check_date_range_coverage`: read the file; empty or
unparseable ⇒ `False`; otherwise HIT iff
`data_start <= start + 5 days ∧ data_end >= end - 5 days`.
(Timezone normalization is the identity here; the `try/except` around the
parquet read maps a corrupt file to `False`.) -/
def checkDateRangeCoverage (st : Store) (ticker : String) (timeframe : String)
    (startDate endDate : Int) : Bool :=
  match st (partitionOf timeframe) ticker with
  | none => false
  | some .corrupt => false
  | some (.table t) =>
    if t.rows.isEmpty then false
    else
      match t.tsList.min?, t.tsList.max? with
      | some dataStart, some dataEnd =>
          decide (dataStart ≤ startDate + 5 * daySec ∧ dataEnd ≥ endDate - 5 * daySec)
      | _, _ => false

/-- `df[df.index >= start]; df[df.index <= end]`: filter a table's rows to
the inclusive range, preserving columns and row order. -/
def filterRange (t : Table) (startDate endDate : Int) : Table :=
  { cols := t.cols
    rows := (t.rows.filter (fun r => startDate ≤ r.ts)).filter (fun r => r.ts ≤ endDate) }

/-- `DataManager._load_from_file`: read the parquet file and filter to the
requested range.  Returns `none` on a missing or corrupt file — on the
only path that calls it the coverage check has already parsed the file
successfully, so that case is unreachable there. -/
def loadFromFile (st : Store) (ticker : String) (timeframe : String)
    (startDate endDate : Int) : Option Table :=
  match st (partitionOf timeframe) ticker with
  | some (.table t) => some (filterRange t startDate endDate)
  | _ => none

/-! ### Remote fetch (`DataManager._fetch_from_alpaca`) -/

/-- A row of the raw frame `bars.df` returned by the Alpaca client: the
multi-index (symbol, timestamp) plus the value columns. -/
structure RawRow where
  symbol : String
  ts : Int
  vals : List Int
deriving DecidableEq, Repr

/-- The raw frame `bars.df`: value columns (e.g. open/high/low/close/volume
plus provider extras such as trade_count, vwap) and its rows. -/
structure RawTable where
  cols : List String
  rows : List RawRow
deriving DecidableEq, Repr

/-- The external Alpaca historical-data client
(`StockHistoricalDataClient.get_stock_bars`): given ticker, timeframe and
range it either raises a provider error or returns a raw bar frame. -/
structure AlpacaClient where
  getStockBars : String → String → Int → Int → Except Unit RawTable

/-- `DataManager`: the only state relevant here is whether
`init_alpaca_client` has been called (`self.alpaca_client`). -/
structure DataManager where
  alpaca_client : Option AlpacaClient

/-- Errors a retrieval can raise to its caller. -/
inductive DMError where
  | runtimeError (msg : String)
  | fetchError
  | storeReadError
deriving Repr

/-- The five columns `_fetch_from_alpaca` projects the raw frame to. -/
def ohlcvCols : List String := ["open", "high", "low", "close", "volume"]

/-- `df[['open','high','low','close','volume']]` applied to one row:
select, in order, the wanted columns' values.  (The Alpaca bar schema
always contains these five columns; a missing column would raise a
`KeyError` in the source and is not modelled.) -/
def projectVals (cols : List String) (vals : List Int) (want : List String) : List Int :=
  want.map (fun c =>
    match cols.findIdx? (· = c) with
    | some i => vals.getD i 0
    | none => 0)

/-- The non-empty branch of `_fetch_from_alpaca`:
`df.reset_index(); df[df['symbol'] == ticker].set_index('timestamp');
df[['open','high','low','close','volume']]`. -/
def processRaw (raw : RawTable) (ticker : String) : Table :=
  { cols := ohlcvCols
    rows := (raw.rows.filter (fun r => r.symbol = ticker)).map
      (fun r => { ts := r.ts, vals := projectVals raw.cols r.vals ohlcvCols }) }

/-- `DataManager._fetch_from_alpaca`: raise `RuntimeError` if the client
was never initialized; propagate any provider error; return the raw
(empty) frame unprocessed when `df.empty`, else the symbol-filtered,
timestamp-indexed, OHLCV-projected frame. -/
def fetchFromAlpaca (dm : DataManager) (ticker : String)
    (startDate endDate : Int) (timeframe : String) : Except DMError Table :=
  match dm.alpaca_client with
  | none => .error (.runtimeError "Alpaca client not initialized. Call init_alpaca_client first.")
  | some client =>
    match client.getStockBars ticker timeframe startDate endDate with
    | .error _ => .error .fetchError
    | .ok raw =>
      if raw.rows.isEmpty then .ok { cols := raw.cols, rows := [] }
      else .ok (processRaw raw ticker)

/-! ### Cache orchestrator (`get_data_for_backtest`, `get_data_for_live`,
`save_data`) -/

/-- `DataManager.save_data`: create the partition directory if needed and
write the frame, replacing prior content for that (ticker, timeframe). -/
def saveData (st : Store) (ticker : String) (df : Table) (timeframe : String) : Store :=
  st.writeFile (partitionOf timeframe) ticker df

/-- Observable side effects of one retrieval, in program order. -/
inductive Event where
  | existsCheck (ticker : String) (p : Partition)
  | storeRead (ticker : String) (p : Partition)
  | fetchCall (ticker : String) (timeframe : String) (startDate endDate : Int)
  | storeWrite (ticker : String) (p : Partition)
deriving DecidableEq, Repr

/-- Is the event a remote fetch? -/
def Event.isFetch : Event → Bool
  | .fetchCall _ _ _ _ => true
  | _ => false

/-- Is the event a local-store write? -/
def Event.isStoreWrite : Event → Bool
  | .storeWrite _ _ => true
  | _ => false

/-- Is the event a local-store access (existence check, read or write)? -/
def Event.isStoreAccess : Event → Bool
  | .existsCheck _ _ => true
  | .storeRead _ _ => true
  | .storeWrite _ _ => true
  | .fetchCall _ _ _ _ => false

/-- Outcome of one retrieval: the returned frame or raised error, the
local store afterwards, and the side effects in order. -/
structure RunResult where
  result : Except DMError Table
  store : Store
  events : List Event

/-- The fetch-and-persist tail of `get_data_for_backtest` (lines 233–239):
fetch; if non-empty, `save_data`; return the fetched frame unfiltered. -/
def backtestFetchStep (dm : DataManager) (st : Store) (ticker : String)
    (startDate endDate : Int) (timeframe : String) (prior : List Event) : RunResult :=
  match fetchFromAlpaca dm ticker startDate endDate timeframe with
  | .error e =>
    { result := .error e, store := st
      events := prior ++ [.fetchCall ticker timeframe startDate endDate] }
  | .ok df =>
    if df.rows.isEmpty then
      { result := .ok df, store := st
        events := prior ++ [.fetchCall ticker timeframe startDate endDate] }
    else
      { result := .ok df, store := saveData st ticker df timeframe
        events := prior ++ [.fetchCall ticker timeframe startDate endDate,
                            .storeWrite ticker (partitionOf timeframe)] }

/-- `DataManager.get_data_for_backtest`: existence check → coverage check
→ (HIT: load from file) or (MISS / no file: fetch, persist if non-empty,
return fetched). -/
def getDataForBacktest (dm : DataManager) (st : Store) (ticker : String)
    (startDate endDate : Int) (timeframe : String) : RunResult :=
  let p := partitionOf timeframe
  if checkFileExists st ticker timeframe then
    if checkDateRangeCoverage st ticker timeframe startDate endDate then
      match loadFromFile st ticker timeframe startDate endDate with
      | some t =>
        { result := .ok t, store := st
          events := [.existsCheck ticker p, .storeRead ticker p, .storeRead ticker p] }
      | none =>
        { result := .error .storeReadError, store := st
          events := [.existsCheck ticker p, .storeRead ticker p, .storeRead ticker p] }
    else
      backtestFetchStep dm st ticker startDate endDate timeframe
        [.existsCheck ticker p, .storeRead ticker p]
  else
    backtestFetchStep dm st ticker startDate endDate timeframe
      [.existsCheck ticker p]

/-- `DataManager.get_data_for_live`: `end = now(UTC)`,
`start = end - (days_back + 10) days`, fetch daily bars directly; the
local store is never consulted. -/
def getDataForLive (dm : DataManager) (st : Store) (ticker : String)
    (daysBack : Int) (now : Int) : RunResult :=
  let endDate := now
  let startDate := endDate - (daysBack + 10) * daySec
  { result := fetchFromAlpaca dm ticker startDate endDate "daily"
    store := st
    events := [.fetchCall ticker "daily" startDate endDate] }

/-- Which timeframe a fetch event requested, if it is a fetch. -/
def Event.fetchTimeframe : Event → Option String
  | .fetchCall _ tf _ _ => some tf
  | _ => none

/-- A frame is sorted ascending by timestamp (strictly, matching the data
model's strictly-increasing unique index). -/
def tsAscending (t : Table) : Prop :=
  t.tsList.Pairwise (· < ·)

instance : DecidablePred tsAscending := fun t =>
  inferInstanceAs (Decidable (t.tsList.Pairwise (· < ·)))

/-- A raw provider frame is sorted ascending by timestamp. -/
def rawAscending (raw : RawTable) : Prop :=
  (raw.rows.map RawRow.ts).Pairwise (· < ·)

instance : DecidablePred rawAscending := fun raw =>
  inferInstanceAs (Decidable ((raw.rows.map RawRow.ts).Pairwise (· < ·)))

/-! ### Trailing-stop percentage boundary
(`AlpacaBroker.submit_order`, `Order.from_alpaca`).  An order's
`trail_percent` is held internally as a decimal fraction (0.05 = 5%);
floats are modelled as rationals — the conversions at issue are a `/ 100`
and an identity, both representation-independent. -/

/-- The value the broker passes to
`AlpacaTrailingStopOrderRequest(trail_percent=order.trail_percent)`
(alpaca_broker.py line 94): the internal decimal fraction, unchanged —
no conversion to the whole-number-percent convention happens here. -/
def submitTrailPercent (p : ℚ) : ℚ := p

/-- `trail_percent_decimal = float(alpaca_order.trail_percent) / 100`
(types.py line 189): parsing a broker response divides by 100. -/
def trailPercentFromAlpaca (x : ℚ) : ℚ := x / 100

/-! ### Concrete fixtures used by witnesses and counterexamples -/

/-- A one-row OHLCV frame with timestamp 0. -/
def sampleTable : Table :=
  { cols := ohlcvCols, rows := [{ ts := 0, vals := [10, 11, 9, 10, 1000] }] }

/-- A store holding `sampleTable` for SPY in the daily partition. -/
def covStore : Store :=
  fun p tk => if p = .daily ∧ tk = "SPY" then some (.table sampleTable) else none

/-- A store whose only SPY daily file is corrupt. -/
def corruptStore : Store :=
  fun p tk => if p = .daily ∧ tk = "SPY" then some (.table sampleTable) else
    if p = .minute ∧ tk = "SPY" then some .corrupt else none

/-- An OHLCV frame whose rows are NOT in ascending timestamp order. -/
def unsortedTable : Table :=
  { cols := ohlcvCols
    rows := [{ ts := daySec, vals := [1, 1, 1, 1, 1] },
             { ts := 0, vals := [2, 2, 2, 2, 2] }] }

/-- A store holding `unsortedTable` for SPY in the daily partition. -/
def unsortedStore : Store :=
  fun p tk => if p = .daily ∧ tk = "SPY" then some (.table unsortedTable) else none

/-- A manager on which `init_alpaca_client` was never called. -/
def noClientDM : DataManager := { alpaca_client := none }

/-- A raw provider frame for SPY with two ascending bars and a provider
extra column. -/
def okRaw : RawTable :=
  { cols := ["open", "high", "low", "close", "volume", "trade_count"]
    rows := [{ symbol := "SPY", ts := 0, vals := [10, 11, 9, 10, 1000, 5] },
             { symbol := "SPY", ts := daySec, vals := [10, 12, 9, 11, 1200, 6] }] }

/-- A manager whose client always returns `okRaw`. -/
def okClientDM : DataManager :=
  { alpaca_client := some { getStockBars := fun _ _ _ _ => .ok okRaw } }

/-- A manager whose client always returns an empty frame. -/
def emptyClientDM : DataManager :=
  { alpaca_client := some { getStockBars := fun _ _ _ _ => .ok { cols := [], rows := [] } } }

/-- A manager whose client always raises a provider error. -/
def failClientDM : DataManager :=
  { alpaca_client := some { getStockBars := fun _ _ _ _ => .error () } }

/-! ## Theorems -/

/-- C1: the Coverage Validator returns HIT iff
`data_start ≤ required_start + 5 days ∧ data_end ≥ required_end - 5 days`
(where `data_start`/`data_end` are the stored series' min/max timestamps);
a stored span `[start+5d, end-5d]` is a HIT for required `[start, end]`,
a stored span starting at `start+5d+1d` is a MISS; an empty stored series
and an unparseable store file each yield MISS (the validator is a total
boolean function — nothing is raised past this boundary). -/
theorem C1_coverage_validator (st : Store) (ticker timeframe : String) (s e : Int) :
    (∀ t ds de, st (partitionOf timeframe) ticker = some (.table t) →
        t.tsList.min? = some ds → t.tsList.max? = some de →
        (checkDateRangeCoverage st ticker timeframe s e = true ↔
          ds ≤ s + 5 * daySec ∧ de ≥ e - 5 * daySec)) ∧
    (∀ t, st (partitionOf timeframe) ticker = some (.table t) →
        t.tsList.min? = some (s + 5 * daySec) → t.tsList.max? = some (e - 5 * daySec) →
        checkDateRangeCoverage st ticker timeframe s e = true) ∧
    (∀ t de, st (partitionOf timeframe) ticker = some (.table t) →
        t.tsList.min? = some (s + 5 * daySec + daySec) → t.tsList.max? = some de →
        checkDateRangeCoverage st ticker timeframe s e = false) ∧
    (∀ t, st (partitionOf timeframe) ticker = some (.table t) → t.rows = [] →
        checkDateRangeCoverage st ticker timeframe s e = false) ∧
    (st (partitionOf timeframe) ticker = some .corrupt →
        checkDateRangeCoverage st ticker timeframe s e = false) := by
  have key : ∀ t ds de, st (partitionOf timeframe) ticker = some (.table t) →
      t.tsList.min? = some ds → t.tsList.max? = some de →
      (checkDateRangeCoverage st ticker timeframe s e = true ↔
        ds ≤ s + 5 * daySec ∧ de ≥ e - 5 * daySec) := by
    intro t ds de hlook hmin hmax
    have hne : t.rows ≠ [] := by
      intro h
      rw [Table.tsList, h] at hmin
      simp at hmin
    have hie : t.rows.isEmpty = false := by
      cases htr : t.rows with
      | nil => exact absurd htr hne
      | cons a l => rfl
    simp only [checkDateRangeCoverage, hlook, hie, hmin, hmax, Bool.if_false_left]
    simp [decide_eq_true_eq]
  refine ⟨key, ?_, ?_, ?_, ?_⟩
  · intro t hlook hmin hmax
    exact (key t _ _ hlook hmin hmax).mpr ⟨le_refl _, le_refl _⟩
  · intro t de hlook hmin hmax
    rw [Bool.eq_false_iff]
    intro hcov
    have h2 := (key t _ _ hlook hmin hmax).mp hcov
    have : ¬ (s + 5 * daySec + daySec ≤ s + 5 * daySec) := by
      simp only [daySec]; omega
    exact this h2.1
  · intro t hlook hrows
    simp [checkDateRangeCoverage, hlook, hrows]
  · intro hlook
    simp [checkDateRangeCoverage, hlook]

/-- Witness for C1: the one-bar SPY daily store is a HIT at its own
timestamp (tolerance absorbs the zero-width span), and a corrupt SPY
minute file is a MISS. -/
theorem C1_coverage_validator_witness :
    checkDateRangeCoverage covStore "SPY" "daily" 0 0 = true ∧
    checkDateRangeCoverage corruptStore "SPY" "minute" 0 0 = false := by
  constructor
  · exact ((C1_coverage_validator covStore "SPY" "daily" 0 0).1 sampleTable 0 0
      rfl rfl rfl).mpr (by decide)
  · exact (C1_coverage_validator corruptStore "SPY" "minute" 0 0).2.2.2.2 rfl

/-- C7, evaluated at the failing input `p = 0.05`: the submission boundary
passes the internal decimal fraction through unchanged (no conversion to
the broker's whole-number-percent convention), while response parsing
divides by 100, so the round trip returns `p / 100 = 0.0005`, not `p` —
contradicting the converted, exact round trip the claim (and the source's
own docstrings) require. -/
theorem C7_trailing_stop_roundtrip_fails :
    submitTrailPercent (1 / 20 : ℚ) = 1 / 20 ∧
    trailPercentFromAlpaca (submitTrailPercent (1 / 20 : ℚ)) = 1 / 2000 ∧
    trailPercentFromAlpaca (submitTrailPercent (1 / 20 : ℚ)) ≠ (1 / 20 : ℚ) := by
  refine ⟨rfl, ?_, ?_⟩ <;> norm_num [submitTrailPercent, trailPercentFromAlpaca]

/-- C10: for any timeframe string other than exactly `'daily'`, every
store operation — existence check, coverage check, read, write — routes
to the minute partition, behaving exactly as for `'minute'`; none of them
inspects the string further or fails (each is a total function of the
store). -/
theorem C10_nondaily_routes_to_minute (st : Store) (ticker tf : String)
    (s e : Int) (df : Table) (h : tf ≠ "daily") :
    partitionOf tf = Partition.minute ∧
    checkFileExists st ticker tf = checkFileExists st ticker "minute" ∧
    checkDateRangeCoverage st ticker tf s e = checkDateRangeCoverage st ticker "minute" s e ∧
    loadFromFile st ticker tf s e = loadFromFile st ticker "minute" s e ∧
    saveData st ticker df tf = saveData st ticker df "minute" := by
  have hp : partitionOf tf = Partition.minute := by
    simp [partitionOf, h]
  have hm : partitionOf "minute" = Partition.minute := by decide
  exact ⟨hp, by rw [checkFileExists, checkFileExists, hp, hm],
    by rw [checkDateRangeCoverage, checkDateRangeCoverage, hp, hm],
    by rw [loadFromFile, loadFromFile, hp, hm],
    by rw [saveData, saveData, hp, hm]⟩

/-- Witness for C10: `'Daily'` (wrong case) is routed to the minute
partition — its existence check consults the minute file, not the daily
one: on a store with only a daily SPY file it answers `false`. -/
theorem C10_nondaily_routes_to_minute_witness :
    partitionOf "Daily" = Partition.minute ∧
    checkFileExists covStore "SPY" "Daily" = checkFileExists covStore "SPY" "minute" ∧
    checkFileExists covStore "SPY" "Daily" = false := by
  have h := C10_nondaily_routes_to_minute covStore "SPY" "Daily" 0 0 sampleTable
    (by decide)
  exact ⟨h.1, h.2.1, by decide⟩

/-- Helper: the full outcome of a backtest retrieval on a coverage HIT. -/
theorem getDataForBacktest_hit_eq (dm : DataManager) (st : Store) (ticker : String)
    (s e : Int) (tf : String) (t : Table)
    (hlook : st (partitionOf tf) ticker = some (.table t))
    (hcov : checkDateRangeCoverage st ticker tf s e = true) :
    getDataForBacktest dm st ticker s e tf =
      { result := .ok (filterRange t s e), store := st
        events := [.existsCheck ticker (partitionOf tf), .storeRead ticker (partitionOf tf),
                   .storeRead ticker (partitionOf tf)] } := by
  have hex : checkFileExists st ticker tf = true := by
    simp [checkFileExists, hlook]
  have hload : loadFromFile st ticker tf s e = some (filterRange t s e) := by
    simp [loadFromFile, hlook]
  simp [getDataForBacktest, hex, hcov, hload]

/-- C3: on a coverage HIT the backtest retrieval returns the stored
series filtered to `[start, end]` inclusive, performs no remote fetch,
does not write the store, and leaves the store unchanged — so a second
call on the resulting store returns the identical outcome. -/
theorem C3_hit_serves_local_idempotent (dm : DataManager) (st : Store) (ticker : String)
    (s e : Int) (tf : String) (t : Table)
    (hlook : st (partitionOf tf) ticker = some (.table t))
    (hcov : checkDateRangeCoverage st ticker tf s e = true) :
    (getDataForBacktest dm st ticker s e tf).result = .ok (filterRange t s e) ∧
    (getDataForBacktest dm st ticker s e tf).store = st ∧
    (∀ ev ∈ (getDataForBacktest dm st ticker s e tf).events,
      ev.isFetch = false ∧ ev.isStoreWrite = false) ∧
    getDataForBacktest dm ((getDataForBacktest dm st ticker s e tf).store) ticker s e tf =
      getDataForBacktest dm st ticker s e tf := by
  have hrun := getDataForBacktest_hit_eq dm st ticker s e tf t hlook hcov
  have hst : (getDataForBacktest dm st ticker s e tf).store = st := by rw [hrun]
  refine ⟨by rw [hrun], hst, ?_, by rw [hst]⟩
  rw [hrun]
  intro ev hev
  simp only [List.mem_cons, List.not_mem_nil, or_false] at hev
  rcases hev with rfl | rfl | rfl <;> exact ⟨rfl, rfl⟩

/-- Witness for C3: with the one-bar SPY daily cache and a manager that
has no client at all, retrieval for `[0, 0]` is a HIT and serves the
filtered stored series. -/
theorem C3_hit_serves_local_idempotent_witness :
    covStore (partitionOf "daily") "SPY" = some (.table sampleTable) ∧
    checkDateRangeCoverage covStore "SPY" "daily" 0 0 = true ∧
    (getDataForBacktest noClientDM covStore "SPY" 0 0 "daily").result =
      .ok (filterRange sampleTable 0 0) := by
  refine ⟨rfl, by decide, ?_⟩
  exact (C3_hit_serves_local_idempotent noClientDM covStore "SPY" 0 0 "daily" sampleTable
    rfl (by decide)).1

/-- C2: on the MISS path with a non-empty fetch, the fetched frame is
persisted as a full replacement of any prior content under that
(ticker, granularity) key, is returned to the caller without
re-filtering, and a subsequent store read returns exactly the newly
fetched rows (filtered to whatever range the read requests). -/
theorem C2_miss_persists_full_replace (dm : DataManager) (st : Store) (ticker : String)
    (s e : Int) (tf : String) (df : Table)
    (hmiss : checkFileExists st ticker tf = false ∨
      checkDateRangeCoverage st ticker tf s e = false)
    (hfetch : fetchFromAlpaca dm ticker s e tf = .ok df)
    (hne : df.rows ≠ []) :
    (getDataForBacktest dm st ticker s e tf).result = .ok df ∧
    (getDataForBacktest dm st ticker s e tf).store = saveData st ticker df tf ∧
    (getDataForBacktest dm st ticker s e tf).store (partitionOf tf) ticker =
      some (.table df) ∧
    (∀ s2 e2, loadFromFile ((getDataForBacktest dm st ticker s e tf).store) ticker tf s2 e2 =
      some (filterRange df s2 e2)) := by
  have hie : df.rows.isEmpty = false := by
    cases h : df.rows with
    | nil => exact absurd h hne
    | cons a l => rfl
  have hstep : ∀ prior, backtestFetchStep dm st ticker s e tf prior =
      { result := .ok df, store := saveData st ticker df tf
        events := prior ++ [.fetchCall ticker tf s e, .storeWrite ticker (partitionOf tf)] } := by
    intro prior
    simp [backtestFetchStep, hfetch, hie]
  have hmain : (getDataForBacktest dm st ticker s e tf).result = .ok df ∧
      (getDataForBacktest dm st ticker s e tf).store = saveData st ticker df tf := by
    rcases hmiss with hmiss | hmiss
    · constructor <;> simp [getDataForBacktest, hmiss, hstep]
    · by_cases hex : checkFileExists st ticker tf = true
      · constructor <;> simp [getDataForBacktest, hex, hmiss, hstep]
      · have hex2 : checkFileExists st ticker tf = false := by simpa using hex
        constructor <;> simp [getDataForBacktest, hex2, hstep]
  have hlook2 : saveData st ticker df tf (partitionOf tf) ticker = some (.table df) := by
    simp [saveData, Store.writeFile]
  refine ⟨hmain.1, hmain.2, by rw [hmain.2]; exact hlook2, ?_⟩
  intro s2 e2
  rw [hmain.2]
  simp [loadFromFile, hlook2]

/-- Witness for C2: the cached SPY one-bar span fails coverage for
`[0, 100 days]`, the client's frame is fetched and persisted; the store
afterwards holds exactly the processed fetched frame. -/
theorem C2_miss_persists_full_replace_witness :
    checkDateRangeCoverage covStore "SPY" "daily" 0 (100 * daySec) = false ∧
    fetchFromAlpaca okClientDM "SPY" 0 (100 * daySec) "daily" = .ok (processRaw okRaw "SPY") ∧
    (getDataForBacktest okClientDM covStore "SPY" 0 (100 * daySec) "daily").store
      (partitionOf "daily") "SPY" = some (.table (processRaw okRaw "SPY")) := by
  refine ⟨by decide, rfl, ?_⟩
  exact (C2_miss_persists_full_replace okClientDM covStore "SPY" 0 (100 * daySec) "daily"
    (processRaw okRaw "SPY") (Or.inr (by decide)) rfl (by decide)).2.2.1

/-- C5: when the fetch path is taken and the provider returns an empty
frame, nothing is written to the store, the result is the empty frame,
and the call returns normally (`.ok`) — empty-result is not a failure. -/
theorem C5_empty_fetch_no_write (dm : DataManager) (st : Store) (ticker : String)
    (s e : Int) (tf : String) (cols : List String)
    (hmiss : checkFileExists st ticker tf = false ∨
      checkDateRangeCoverage st ticker tf s e = false)
    (hfetch : fetchFromAlpaca dm ticker s e tf = .ok { cols := cols, rows := [] }) :
    (getDataForBacktest dm st ticker s e tf).result = .ok { cols := cols, rows := [] } ∧
    (getDataForBacktest dm st ticker s e tf).store = st ∧
    (∀ ev ∈ (getDataForBacktest dm st ticker s e tf).events, ev.isStoreWrite = false) := by
  have hstep : ∀ prior, backtestFetchStep dm st ticker s e tf prior =
      { result := .ok { cols := cols, rows := [] }, store := st
        events := prior ++ [.fetchCall ticker tf s e] } := by
    intro prior
    simp [backtestFetchStep, hfetch]
  have hrun : ∃ prior, (∀ ev ∈ prior, ev.isStoreWrite = false) ∧
      getDataForBacktest dm st ticker s e tf =
      { result := .ok { cols := cols, rows := [] }, store := st
        events := prior ++ [.fetchCall ticker tf s e] } := by
    rcases hmiss with hmiss | hmiss
    · refine ⟨[.existsCheck ticker (partitionOf tf)], ?_, ?_⟩
      · intro ev hev
        simp only [List.mem_singleton] at hev
        subst hev; rfl
      · simp [getDataForBacktest, hmiss, hstep]
    · by_cases hex : checkFileExists st ticker tf = true
      · refine ⟨[.existsCheck ticker (partitionOf tf), .storeRead ticker (partitionOf tf)],
          ?_, ?_⟩
        · intro ev hev
          simp only [List.mem_cons, List.not_mem_nil, or_false] at hev
          rcases hev with rfl | rfl <;> rfl
        · simp [getDataForBacktest, hex, hmiss, hstep]
      · have hex2 : checkFileExists st ticker tf = false := by simpa using hex
        refine ⟨[.existsCheck ticker (partitionOf tf)], ?_, ?_⟩
        · intro ev hev
          simp only [List.mem_singleton] at hev
          subst hev; rfl
        · simp [getDataForBacktest, hex2, hstep]
  obtain ⟨prior, hpr, hrun⟩ := hrun
  refine ⟨by rw [hrun], by rw [hrun], ?_⟩
  rw [hrun]
  intro ev hev
  rcases List.mem_append.mp hev with h | h
  · exact hpr ev h
  · simp only [List.mem_singleton] at h
    subst h; rfl

/-- Witness for C5: a store with no AAPL file and a client that returns
an empty frame — the retrieval succeeds with an empty frame and the
store entry stays absent. -/
theorem C5_empty_fetch_no_write_witness :
    checkFileExists covStore "AAPL" "daily" = false ∧
    fetchFromAlpaca emptyClientDM "AAPL" 0 0 "daily" = .ok { cols := [], rows := [] } ∧
    (getDataForBacktest emptyClientDM covStore "AAPL" 0 0 "daily").result =
      .ok { cols := [], rows := [] } ∧
    (getDataForBacktest emptyClientDM covStore "AAPL" 0 0 "daily").store = covStore := by
  refine ⟨by decide, rfl, ?_, ?_⟩
  · exact (C5_empty_fetch_no_write emptyClientDM covStore "AAPL" 0 0 "daily" []
      (Or.inl (by decide)) rfl).1
  · exact (C5_empty_fetch_no_write emptyClientDM covStore "AAPL" 0 0 "daily" []
      (Or.inl (by decide)) rfl).2.1

/-- C6: reaching the fetch step with an uninitialized client fails fast
with the configuration error naming `init_alpaca_client`; a provider
failure is propagated to the caller of the retrieval entry point as
`fetchError`, with exactly one fetch attempt (no internal retry). -/
theorem C6_misconfig_and_fetch_error (dm : DataManager) (st : Store) (ticker : String)
    (s e : Int) (tf : String)
    (hmiss : checkFileExists st ticker tf = false ∨
      checkDateRangeCoverage st ticker tf s e = false) :
    (dm.alpaca_client = none →
      (getDataForBacktest dm st ticker s e tf).result =
        .error (.runtimeError "Alpaca client not initialized. Call init_alpaca_client first.")) ∧
    (∀ client, dm.alpaca_client = some client →
      client.getStockBars ticker tf s e = .error () →
      (getDataForBacktest dm st ticker s e tf).result = .error .fetchError ∧
      ((getDataForBacktest dm st ticker s e tf).events.filter Event.isFetch).length = 1) := by
  have hbranch : ∀ err, fetchFromAlpaca dm ticker s e tf = .error err →
      ∃ prior, (∀ ev ∈ prior, ev.isFetch = false) ∧
      getDataForBacktest dm st ticker s e tf =
        { result := .error err, store := st
          events := prior ++ [.fetchCall ticker tf s e] } := by
    intro err hf
    have hstep : ∀ prior, backtestFetchStep dm st ticker s e tf prior =
        { result := .error err, store := st
          events := prior ++ [.fetchCall ticker tf s e] } := by
      intro prior
      simp [backtestFetchStep, hf]
    rcases hmiss with hmiss | hmiss
    · refine ⟨[.existsCheck ticker (partitionOf tf)], ?_, ?_⟩
      · intro ev hev
        simp only [List.mem_singleton] at hev
        subst hev; rfl
      · simp [getDataForBacktest, hmiss, hstep]
    · by_cases hex : checkFileExists st ticker tf = true
      · refine ⟨[.existsCheck ticker (partitionOf tf), .storeRead ticker (partitionOf tf)],
          ?_, ?_⟩
        · intro ev hev
          simp only [List.mem_cons, List.not_mem_nil, or_false] at hev
          rcases hev with rfl | rfl <;> rfl
        · simp [getDataForBacktest, hex, hmiss, hstep]
      · have hex2 : checkFileExists st ticker tf = false := by simpa using hex
        refine ⟨[.existsCheck ticker (partitionOf tf)], ?_, ?_⟩
        · intro ev hev
          simp only [List.mem_singleton] at hev
          subst hev; rfl
        · simp [getDataForBacktest, hex2, hstep]
  constructor
  · intro hnone
    have hf : fetchFromAlpaca dm ticker s e tf =
        .error (.runtimeError "Alpaca client not initialized. Call init_alpaca_client first.") := by
      simp [fetchFromAlpaca, hnone]
    obtain ⟨prior, _, hrun⟩ := hbranch _ hf
    rw [hrun]
  · intro client hsome herr
    have hf : fetchFromAlpaca dm ticker s e tf = .error .fetchError := by
      simp [fetchFromAlpaca, hsome, herr]
    obtain ⟨prior, hpr, hrun⟩ := hbranch _ hf
    refine ⟨by rw [hrun], ?_⟩
    rw [hrun]
    have hfil : prior.filter Event.isFetch = [] := by
      rw [List.filter_eq_nil_iff]
      intro ev hev
      simp [hpr ev hev]
    simp [List.filter_append, hfil, Event.isFetch]

/-- Witness for C6: with no AAPL file, an uninitialized manager fails
with the configuration error, and a manager whose client raises yields a
propagated fetch error after exactly one fetch attempt. -/
theorem C6_misconfig_and_fetch_error_witness :
    (getDataForBacktest noClientDM covStore "AAPL" 0 0 "daily").result =
      .error (.runtimeError "Alpaca client not initialized. Call init_alpaca_client first.") ∧
    (getDataForBacktest failClientDM covStore "AAPL" 0 0 "daily").result =
      .error .fetchError ∧
    ((getDataForBacktest failClientDM covStore "AAPL" 0 0 "daily").events.filter
      Event.isFetch).length = 1 := by
  refine ⟨?_, ?_, ?_⟩
  · exact (C6_misconfig_and_fetch_error noClientDM covStore "AAPL" 0 0 "daily"
      (Or.inl (by decide))).1 rfl
  · exact ((C6_misconfig_and_fetch_error failClientDM covStore "AAPL" 0 0 "daily"
      (Or.inl (by decide))).2 _ rfl rfl).1
  · exact ((C6_misconfig_and_fetch_error failClientDM covStore "AAPL" 0 0 "daily"
      (Or.inl (by decide))).2 _ rfl rfl).2

/-- C4: live retrieval never touches the Local Store — the store is
returned unchanged, no store event (existence check, read or write) is
issued, the result does not depend on the store at all — and the fetch
window handed to the Remote Fetcher is exactly
`end = now`, `start = now - (lookback_days + 10) days`. -/
theorem C4_live_bypasses_store (dm : DataManager) (st st2 : Store) (ticker : String)
    (daysBack now : Int) :
    (getDataForLive dm st ticker daysBack now).store = st ∧
    (∀ ev ∈ (getDataForLive dm st ticker daysBack now).events, ev.isStoreAccess = false) ∧
    (getDataForLive dm st ticker daysBack now).result =
      (getDataForLive dm st2 ticker daysBack now).result ∧
    (getDataForLive dm st ticker daysBack now).events =
      [.fetchCall ticker "daily" (now - (daysBack + 10) * daySec) now] := by
  refine ⟨rfl, ?_, rfl, rfl⟩
  intro ev hev
  simp only [getDataForLive, List.mem_singleton] at hev
  subst hev; rfl

/-- C9: every fetch issued by live retrieval is at DAILY granularity —
the timeframe is hard-wired, with no caller-supplied parameter that
could select minute bars. -/
theorem C9_live_always_daily (dm : DataManager) (st : Store) (ticker : String)
    (daysBack now : Int) :
    (getDataForLive dm st ticker daysBack now).events.filterMap Event.fetchTimeframe =
      ["daily"] ∧
    (getDataForLive dm st ticker daysBack now).result =
      fetchFromAlpaca dm ticker (now - (daysBack + 10) * daySec) now "daily" :=
  ⟨rfl, rfl⟩

/-- Counterexample to C8 as stated: the HIT path does not sort (nor
re-restrict) what the store holds — with a stored SPY daily file whose
rows are out of timestamp order, the retrieval returns those rows in
stored (non-ascending) order. -/
theorem C8_counterexample :
    (getDataForBacktest noClientDM unsortedStore "SPY" 0 daySec "daily").result =
      .ok (filterRange unsortedTable 0 daySec) ∧
    filterRange unsortedTable 0 daySec = unsortedTable ∧
    ¬ tsAscending unsortedTable := by
  refine ⟨rfl, by decide, by decide⟩

/-- Helper: row filtering preserves ascending timestamp order. -/
theorem tsAscending_filterRange {t : Table} (s e : Int) (h : tsAscending t) :
    tsAscending (filterRange t s e) := by
  simp only [tsAscending, Table.tsList, filterRange] at h ⊢
  exact List.pairwise_map.mpr (((List.pairwise_map.mp h).filter _).filter _)

/-- Helper: the OHLCV projection of an ascending raw provider frame is
ascending. -/
theorem tsAscending_processRaw {raw : RawTable} (ticker : String) (h : rawAscending raw) :
    tsAscending (processRaw raw ticker) := by
  simp only [rawAscending] at h
  simp only [tsAscending, Table.tsList, processRaw, List.map_map]
  exact List.pairwise_map.mpr ((List.pairwise_map.mp h).filter _)

/-- C8 (amended): on the non-empty fetch path the returned frame has
exactly the lower-case columns {open, high, low, close, volume} and is
ascending whenever the provider's frame is; on the HIT path the result
is the stored frame filtered to the range, preserving the stored
columns and row order — so it has the five OHLCV columns sorted
ascending exactly when the stored file does (as every file written by
this system's own fetch-and-persist path does), but nothing re-sorts or
re-restricts a file that lacks them. -/
theorem C8_amended_columns_order (dm : DataManager) (st : Store) (ticker : String)
    (s e : Int) (tf : String) :
    (∀ t, st (partitionOf tf) ticker = some (.table t) →
      checkDateRangeCoverage st ticker tf s e = true →
      (getDataForBacktest dm st ticker s e tf).result = .ok (filterRange t s e) ∧
      (filterRange t s e).cols = t.cols ∧
      (tsAscending t → tsAscending (filterRange t s e))) ∧
    (∀ client raw, dm.alpaca_client = some client →
      client.getStockBars ticker tf s e = .ok raw → raw.rows ≠ [] →
      fetchFromAlpaca dm ticker s e tf = .ok (processRaw raw ticker) ∧
      (processRaw raw ticker).cols = ohlcvCols ∧
      (rawAscending raw → tsAscending (processRaw raw ticker))) := by
  constructor
  · intro t hlook hcov
    refine ⟨?_, rfl, fun h => tsAscending_filterRange s e h⟩
    rw [getDataForBacktest_hit_eq dm st ticker s e tf t hlook hcov]
  · intro client raw hsome hok hne
    have hie : raw.rows.isEmpty = false := by
      cases h : raw.rows with
      | nil => exact absurd h hne
      | cons a l => rfl
    refine ⟨?_, rfl, fun h => tsAscending_processRaw ticker h⟩
    simp [fetchFromAlpaca, hsome, hok, hie]

/-- Witness for C8 (amended): the sorted one-bar cache is served
filtered on a HIT, and the processed fetch of the two-bar ascending raw
frame has exactly the OHLCV columns in ascending order. -/
theorem C8_amended_columns_order_witness :
    (getDataForBacktest noClientDM covStore "SPY" 0 0 "daily").result =
      .ok (filterRange sampleTable 0 0) ∧
    (processRaw okRaw "SPY").cols = ohlcvCols ∧
    tsAscending (processRaw okRaw "SPY") := by
  have h1 := (C8_amended_columns_order noClientDM covStore "SPY" 0 0 "daily").1
    sampleTable rfl (by decide)
  have h2 := (C8_amended_columns_order okClientDM covStore "SPY" 0 0 "daily").2
    _ okRaw rfl rfl (by decide)
  exact ⟨h1.1, h2.2.1, h2.2.2 (by decide)⟩

end SwingTrader
